import Mathlib

/-!
Shallow embedding of the gnopls workspace package-resolution driver
(`pkg/resolver/driver.go` and `pkg/resolver/resolver.go`).

Source files are modelled as parse oracles: a `Content` records, for one
file's bytes, the outcome of the two `go/parser` modes the resolver uses
(`PackageClauseOnly`, and `SkipObjectResolution|ImportsOnly`).  The parser
itself is external to the repository (`go/parser`), so its behaviour on a
given byte string is part of the environment, while everything the
resolver does with the parse outcomes is translated from the source.

Filesystem effects (`gnolang.ReadMemPackage`, `os.ReadDir`,
`filepath.WalkDir`, `os.Stat`) and the external loader
(`gnopackages.Load`) are likewise supplied by an `Env` value; the
resolver's control flow over those results is translated from the source.
-/

namespace GnoResolver

/-- Association-list lookup, modelling Go map indexing `m[k]` (first
matching key wins; overlay maps have unique keys). -/
def lookupA {α : Type} (l : List (String × α)) (k : String) : Option α :=
  (l.find? (fun kv => kv.fst = k)).map (fun kv => kv.snd)

/-- `strings.HasSuffix` over the character list (kernel-reducible
replacement for `String.endsWith`). -/
def endsWithS (s suf : String) : Bool := suf.data.isSuffixOf s.data

/-- `strings.HasPrefix` over the character list. -/
def startsWithS (s pre : String) : Bool := pre.data.isPrefixOf s.data

/-- Models `filepath.Join(dir, name)` for the clean paths the resolver
builds. -/
def joinPath (dir name : String) : String := dir ++ "/" ++ name

/-- Models `filepath.Base` on the clean paths the resolver builds: the
last `/`-separated component. -/
def baseName (s : String) : String := ⟨(s.data.reverse.takeWhile (fun c => c ≠ '/')).reverse⟩

/-- Models the quote stripping in `resolveNameAndImports`:
`importPath = importPath[1 : len(importPath)-1]` when `len >= 2`. -/
def stripQuotes (s : String) : String :=
  if 2 ≤ s.data.length then ⟨(s.data.drop 1).dropLast⟩ else s

/-- Models `strings.TrimPrefix`. -/
def trimPre (s pre : String) : String :=
  if pre.data.isPrefixOf s.data then ⟨s.data.drop pre.data.length⟩ else s

/-- Models the directory part of `filepath.Split`: everything up to and
including the final slash (empty when there is no slash). -/
def splitDirPart (s : String) : String :=
  ⟨(s.data.reverse.dropWhile (fun c => c ≠ '/')).reverse⟩

/-- Models `gnolang.IsStdlib` (external to this repository): an import
path is a stdlib path when its first segment carries no domain dot. -/
def isStdlibPath (s : String) : Bool :=
  !((s.data.takeWhile (fun c => c ≠ '/')).contains '.')

/-- One positioned error of a `scanner.ErrorList` entry, already rendered
(`err.Pos.String()` and `err.Msg`). -/
structure PErr where
  pos : String
  msg : String
deriving DecidableEq, Repr

/-- The error component of a `parser.ParseFile` call: `nil`, a
`scanner.ErrorList` (non-nil, hence nonempty), or some other error. -/
inductive ParseErrs where
  | ok : ParseErrs
  | errList (hd : PErr) (tl : List PErr) : ParseErrs
  | other (msg : String) : ParseErrs
deriving DecidableEq, Repr

/-- `packages.Error.Kind` values used by the resolver. -/
inductive ErrKind where
  | parseError : ErrKind
deriving DecidableEq, Repr

/-- `packages.Error`: `{Pos, Msg, Kind}`. -/
structure PkgError where
  pos : String
  msg : String
  kind : ErrKind
deriving DecidableEq, Repr

/-- The `*ast.File` information the resolver reads after an
`ImportsOnly` parse: `f.Name` and the raw `imp.Path.Value` literals. -/
structure FileAst where
  name : String
  imports : List String
deriving DecidableEq, Repr

/-- Parse oracle for one file's effective bytes: the results of the two
parse modes the resolver performs on those bytes. -/
structure Content where
  /-- `parsed.Name.String()` when the `PackageClauseOnly` parse returns a
  non-nil file. -/
  clauseName : Option String
  /-- the error of the `PackageClauseOnly` parse. -/
  clauseErr : ParseErrs
  /-- the file of the `SkipObjectResolution|ImportsOnly` parse, when
  non-nil. -/
  impFile : Option FileAst
  /-- the error of the `SkipObjectResolution|ImportsOnly` parse. -/
  impErr : ParseErrs
deriving DecidableEq, Repr

/-- `packages.Package`, restricted to the fields the resolver writes.
`imports` is the `Imports` map as an association list; a value `none` is
a nil `*Package`, and `some i` is a pointer to the `i`-th entry of the
response's `Packages` slice. -/
structure Package where
  id : String := ""
  pkgPath : String := ""
  name : String := ""
  goFiles : List String := []
  compiledGoFiles : List String := []
  errors : List PkgError := []
  imports : List (String × Option Nat) := []
deriving DecidableEq, Repr

/-- `packages.DriverRequest`, restricted to the fields the resolver
reads: the overlay maps a file path to the parse oracle of the overlay
bytes. -/
structure DriverRequest where
  tests : Bool := false
  overlay : List (String × Content) := []
deriving Repr

/-- `packages.DriverResponse`. -/
structure DriverResponse where
  packages : List Package := []
  roots : List String := []
deriving DecidableEq, Repr

/-- One `filepath.WalkDir` / `fs.WalkDir` callback invocation: the path
visited, whether it is a directory, and the walk error handed to the
callback (if any). -/
structure WalkEvent where
  path : String
  isDir : Bool
  err : Option String
deriving DecidableEq, Repr

/-- One package returned by the external loader `gnopackages.Load`
(not under `src/`).  `importPath` is its reported `ImportPath`,
`dirPath` its directory, `modPath` the module path its descriptor
declares (`none` when the descriptor cannot be read or parsed, in which
case `gnoPkgToGo` yields no packages), and `matched` whether
`len(gnopkg.Match) != 0`. -/
structure LoadedPkg where
  importPath : String
  dirPath : String
  modPath : Option String
  matched : Bool
deriving DecidableEq, Repr

/-- The environment of one resolution: filesystem state and the outcomes
of the external helpers. -/
structure Env where
  /-- `gnoenv.GuessRootDir` result (`none` = error, logged only). -/
  gnoRoot : Option String := none
  /-- walk events per root, for `fs.WalkDir`/`filepath.WalkDir`. -/
  walks : List (String × List WalkEvent) := []
  /-- paths for which `os.Stat` succeeds. -/
  statFiles : List String := []
  /-- `os.ReadDir` results: directory to entries `(name, isDir)`;
  absence is a read error. -/
  readDirs : List (String × List (String × Bool)) := []
  /-- `gnolang.ReadMemPackage` listings: directory to member file names
  in order; absence is a read error. -/
  memPkgs : List (String × List String) := []
  /-- parse oracle of the on-disk bytes of each file path. -/
  files : List (String × Content) := []
  /-- `gnotypes.GuessBuiltinDir` result (`none` = error). -/
  builtinDir : Option String := none
  /-- Modelled from the spec: the outcome of the external
  `gnopackages.Load` call (its implementation is not under `src/`);
  per the spec it fails only on a hard failure for an explicitly
  requested pattern (unreadable source directory or unparseable
  descriptor). -/
  load : Except String (List LoadedPkg) := .ok []
deriving Repr

/-- Parse oracle of a path read from disk: `parser.ParseFile` with nil
`src`, or the `file.Body` of the mem-package.  A path with no disk entry
fails both parses. -/
def diskContent (env : Env) (p : String) : Content :=
  (lookupA env.files p).getD
    { clauseName := none, clauseErr := .other "no such file or directory"
      impFile := none, impErr := .other "no such file or directory" }

/-- The bytes actually parsed for a path: the overlay entry when its key
matches exactly, otherwise the on-disk bytes (`src` selection in
`readPkg` and `resolveNameAndImports`). -/
def effSrc (env : Env) (req : DriverRequest) (p : String) : Content :=
  match lookupA req.overlay p with
  | some c => c
  | none => diskContent env p

/-- Renders one `parser.ParseFile` error into `packages.Error` entries:
each `scanner.ErrorList` entry with its own position, any other error as
a single synthetic entry at line 1 of the file. -/
def renderErrs (srcPath : String) : ParseErrs → List PkgError
  | .ok => []
  | .errList hd tl => (hd :: tl).map (fun e => ⟨e.pos, e.msg, .parseError⟩)
  | .other m => [⟨srcPath ++ ":1", m, .parseError⟩]

/-- The per-name counter `names map[string]int` with `names[name] += 1`. -/
def bumpCount : List (String × Nat) → String → List (String × Nat)
  | [], n => [(n, 1)]
  | (m, k) :: rest, n =>
      if m = n then (m, k + 1) :: rest else (m, k) :: bumpCount rest n

/-- Go map read `names[name]` (0 when absent). -/
def lookupCount (a : List (String × Nat)) (n : String) : Nat :=
  ((a.find? (fun kv => kv.fst = n)).map (fun kv => kv.snd)).getD 0

/-- The majority-vote state of `resolveNameAndImports`: the counter map
and the current best name with its count. -/
structure NState where
  names : List (String × Nat)
  best : String
  bestCount : Nat
deriving DecidableEq, Repr

/-- One non-test package clause observed: `names[name] += 1; count :=
names[name]; if count > bestNameCount { bestName, bestNameCount = name,
count }`. -/
def bumpName (s : NState) (n : String) : NState :=
  let names := bumpCount s.names n
  let count := lookupCount names n
  if s.bestCount < count then ⟨names, n, count⟩ else ⟨names, s.best, s.bestCount⟩

/-- Go map key insertion `imports[importPath] = nil` on the key set,
keeping first-insertion order. -/
def insertKey (ks : List String) (k : String) : List String :=
  if ks.contains k then ks else ks ++ [k]

/-- The running state of the `resolveNameAndImports` loop. -/
structure RState where
  ns : NState
  imps : List String
  errs : List PkgError
deriving DecidableEq, Repr

/-- One iteration of the `resolveNameAndImports` file loop: parse with
`SkipObjectResolution|ImportsOnly` on the effective bytes, append the
rendered parse errors, and when a file was produced, feed the package
clause to the majority vote (only when `pkg.Name` is empty and the clause
is not `_test`-suffixed) and the
quote-stripped import paths to the import key set. -/
def riStep (env : Env) (req : DriverRequest) (nameEmpty : Bool)
    (s : RState) (srcPath : String) : RState :=
  let c := effSrc env req srcPath
  let errs := s.errs ++ renderErrs srcPath c.impErr
  match c.impFile with
  | none => ⟨s.ns, s.imps, errs⟩
  | some f =>
      let ns := if nameEmpty ∧ ¬(endsWithS f.name "_test" = true) then bumpName s.ns f.name
                else s.ns
      ⟨ns, f.imports.foldl (fun a lit => insertKey a (stripQuotes lit)) s.imps, errs⟩

/-- `resolveNameAndImports` (resolver.go): walks `pkg.CompiledGoFiles`,
accumulating parse errors, the majority-vote name, and the raw import
key set (all values nil). -/
def resolveNameAndImports (env : Env) (req : DriverRequest) (pkg : Package) : Package :=
  let s := pkg.compiledGoFiles.foldl (riStep env req (pkg.name = "")) ⟨⟨[], "", 0⟩, [], []⟩
  { pkg with
    errors := pkg.errors ++ s.errs
    name := if pkg.name = "" then s.ns.best else pkg.name
    imports := s.imps.map (fun k => (k, none)) }

/-- The member-file classification loop of `readPkg` (resolver.go):
returns the ordinary package's files, the external-test package's files,
and the parse errors recorded on the ordinary package, in loop order.
Non-`.gno` and `_filetest.gno` names are skipped; a `_test.gno` file is
parsed `PackageClauseOnly` on its effective bytes, its parse errors are
appended to the ordinary package, and it moves to the external-test
package exactly when a file node was produced and its clause name ends
in `_test`. -/
def classifyFiles (env : Env) (req : DriverRequest) (dir : String) :
    List String → List String × List String × List PkgError
  | [] => ([], [], [])
  | n :: rest =>
      let (fs, xs, es) := classifyFiles env req dir rest
      if ¬(endsWithS n ".gno" = true) then (fs, xs, es)
      else if endsWithS n "_filetest.gno" then (fs, xs, es)
      else
        let srcPath := joinPath dir n
        if endsWithS n "_test.gno" then
          let c := effSrc env req srcPath
          let es0 := renderErrs srcPath c.clauseErr
          match c.clauseName with
          | some nm =>
              if endsWithS nm "_test" then (fs, srcPath :: xs, es0 ++ es)
              else (srcPath :: fs, xs, es0 ++ es)
          | none => (srcPath :: fs, xs, es0 ++ es)
        else (srcPath :: fs, xs, es)

/-- `readPkg` (resolver.go): read the mem-package listing (`[]` on
error), classify member files into the ordinary and external-test
packages, then resolve names and imports for both.  The external-test
package's `ID`/`PkgPath` are the base path suffixed `_test` and its name
is pre-seeded from the resolved base name. -/
def readPkg (env : Env) (req : DriverRequest) (dir pkgPath : String) : List Package :=
  match lookupA env.memPkgs dir with
  | none => []
  | some listing =>
      let (fs, xs, es) := classifyFiles env req dir listing
      let pkg := resolveNameAndImports env req
        { id := pkgPath, pkgPath := pkgPath, name := ""
          goFiles := fs, compiledGoFiles := fs, errors := es, imports := [] }
      let xTestPkg := resolveNameAndImports env req
        { id := pkgPath ++ "_test", pkgPath := pkgPath ++ "_test"
          name := pkg.name ++ "_test"
          goFiles := xs, compiledGoFiles := xs, errors := [], imports := [] }
      [pkg, xTestPkg]

/-- `listPackagesPath` (resolver.go): `filepath.WalkDir` from `root`,
aborting with the first walk error handed to the callback, collecting
every directory in which one of `gnomod.toml`, `gno.mod` stats
successfully. -/
def listPackagesPath (env : Env) (root : String) : Except String (List String) :=
  ((lookupA env.walks root).getD []).foldlM
    (fun acc ev =>
      match ev.err with
      | some e => .error e
      | none =>
          if ¬ev.isDir then .ok acc
          else if env.statFiles.contains (joinPath ev.path "gnomod.toml")
                  ∨ env.statFiles.contains (joinPath ev.path "gno.mod") then
            .ok (acc ++ [ev.path])
          else .ok acc)
    []

/-- The directory of a `file=` query pattern:
`dir, _ := filepath.Split(pattern); dir = strings.TrimPrefix(dir, "file=")`. -/
def fileQueryDir (pattern : String) : String := trimPre (splitDirPart pattern) "file="

/-- One iteration of the pattern-classification loop at the top of
`Resolve` (driver.go), over the state `(requireBuiltin,
loaderPatterns)`: a `file=` pattern expands through `listPackagesPath`
(whose error aborts the whole call), the literal `builtin` sets
`requireBuiltin`, and any other pattern passes through to the loader
patterns. -/
def patternStep (env : Env) (st : Bool × List String) (pattern : String) :
    Except String (Bool × List String) :=
  if startsWithS pattern "file=" then
    match listPackagesPath env (fileQueryDir pattern) with
    | .error e => .error e
    | .ok gnomodsRes => .ok (st.fst, st.snd ++ gnomodsRes)
  else if pattern = "builtin" then .ok (true, st.snd)
  else .ok (st.fst, st.snd ++ [pattern])

/-- The pattern-classification loop at the top of `Resolve`
(driver.go). -/
def patternPhase (env : Env) (patterns : List String) :
    Except String (Bool × List String) :=
  patterns.foldlM (patternStep env) (false, [])

/-- The test-library patch loop in the stdlib injection of `Resolve`
(driver.go): for each non-directory, non-dot `.gno` entry of the
matching `tests/stdlibs` directory, delete the same-basename entries
from `GoFiles`/`CompiledGoFiles` and append the test-library file.  A
`ReadDir` failure leaves the package unchanged. -/
def testLibPatch (env : Env) (testLibDir : String) (pkg : Package) : Package :=
  match lookupA env.readDirs testLibDir with
  | none => pkg
  | some entries =>
      entries.foldl
        (fun pkg entry =>
          if entry.snd then pkg
          else
            let filename := entry.fst
            let isDot := filename.data.head? = some '.'
            if isDot ∨ ¬(endsWithS filename ".gno" = true) then pkg
            else
              let file := joinPath testLibDir filename
              { pkg with
                goFiles :=
                  (pkg.goFiles.filter (fun src => ¬(baseName src = filename))) ++ [file]
                compiledGoFiles :=
                  (pkg.compiledGoFiles.filter (fun src => ¬(baseName src = filename))) ++ [file] })
        pkg

/-- The first stdlib-injection walk of `Resolve` (driver.go): walk
`libsRoot`, skipping errored entries, non-directories and `"."`; read
each directory as a package (path relative to the root is the import
path), keep only packages with member files, and patch each kept
package from the parallel test-library directory. -/
def stdlibPhase (env : Env) (req : DriverRequest) (libsRoot testLibsRoot : String) :
    List Package :=
  ((lookupA env.walks libsRoot).getD []).foldl
    (fun acc ev =>
      if ev.err.isSome then acc
      else if ¬ev.isDir then acc
      else if ev.path = "." then acc
      else
        let pkgDir := joinPath libsRoot ev.path
        (readPkg env req pkgDir ev.path).foldl
          (fun acc pkg =>
            if pkg.goFiles.length = 0 then acc
            else acc ++ [testLibPatch env (joinPath testLibsRoot ev.path) pkg])
          acc)
    []

/-- The second stdlib-injection walk of `Resolve` (driver.go): walk
`testLibsRoot`, skipping errored entries, non-directories, `"."`, and
paths already present among the discovered packages; append the
packages with member files. -/
def testLibPhase (env : Env) (req : DriverRequest) (testLibsRoot : String)
    (sofar : List Package) : List Package :=
  ((lookupA env.walks testLibsRoot).getD []).foldl
    (fun acc ev =>
      if ev.err.isSome then acc
      else if ¬ev.isDir then acc
      else if ev.path = "." then acc
      else if acc.any (fun p => p.pkgPath = ev.path) then acc
      else
        (readPkg env req (joinPath testLibsRoot ev.path) ev.path).foldl
          (fun acc pkg => if pkg.goFiles.length = 0 then acc else acc ++ [pkg])
          acc)
    sofar

/-- `getBuiltinPkg` (resolver.go) on a located builtin directory: a
single-`GoFiles` package with `ID = PkgPath = Name = "builtin"`. -/
def builtinPkg (builtindir : String) : Package :=
  { id := "builtin", pkgPath := "builtin", name := "builtin"
    goFiles := [joinPath builtindir "builtin.gno"]
    compiledGoFiles := [], errors := [], imports := [] }

/-- `gnoPkgToGo` (resolver.go): parse the package's module descriptor
(failure yields no packages) and read the directory under the declared
module path. -/
def gnoPkgToGo (env : Env) (req : DriverRequest) (lp : LoadedPkg) : List Package :=
  match lp.modPath with
  | none => []
  | some modulePath => readPkg env req lp.dirPath modulePath

/-- The conversion loop of `Resolve` (driver.go): skip loaded packages
whose reported import path is a stdlib path, convert the rest through
`gnoPkgToGo`, append all resulting packages, and add their IDs to the
roots when the loaded package matched a query pattern. -/
def convertPhase (env : Env) (req : DriverRequest) (loaded : List LoadedPkg) :
    List Package × List String :=
  loaded.foldl
    (fun st lp =>
      if isStdlibPath lp.importPath then st
      else
        let pkgs := gnoPkgToGo env req lp
        (st.fst ++ pkgs,
         if lp.matched then st.snd ++ pkgs.map (fun p => p.id) else st.snd))
    ([], [])

/-- `findGoPkg` (driver.go) as an index: the first discovered package
whose `PkgPath` equals the import path. -/
def findGoPkg (pkgs : List Package) (pkgpath : String) : Option Nat :=
  match pkgs with
  | [] => none
  | pkg :: rest =>
      if pkg.pkgPath = pkgpath then some 0
      else (findGoPkg rest pkgpath).map (fun i => i + 1)

/-- The import-resolution body of `Resolve` (driver.go) for one package:
packages whose `PkgPath` is `"builtin"` are skipped; otherwise each
of the import keys found among the discovered packages is pointed at the first
such package, and every unresolved key is deleted. -/
def linkPkg (pkgs : List Package) (pkg : Package) : Package :=
  if pkg.pkgPath = "builtin" then pkg
  else
    { pkg with
      imports := pkg.imports.filterMap
        (fun kv => (findGoPkg pkgs kv.fst).map (fun i => (kv.fst, some i))) }

/-- The import-resolution pass of `Resolve` (driver.go) over all
discovered packages. -/
def link (pkgs : List Package) : List Package := pkgs.map (linkPkg pkgs)

/-- The whole stdlib injection of `Resolve` (driver.go): nothing when no
gno root was found, otherwise the two stdlib walks in order. -/
def stdlibAll (env : Env) (req : DriverRequest) : List Package :=
  match env.gnoRoot with
  | none => []
  | some gnoRoot =>
      let libsRoot := joinPath (joinPath gnoRoot "gnovm") "stdlibs"
      let testLibsRoot := joinPath (joinPath (joinPath gnoRoot "gnovm") "tests") "stdlibs"
      testLibPhase env req testLibsRoot (stdlibPhase env req libsRoot testLibsRoot)

/-- The builtin injection of `Resolve` (driver.go): on request and when
`getBuiltinPkg` succeeds, one synthesized package whose ID joins the
roots; a `getBuiltinPkg` failure is silently skipped. -/
def builtinPart (env : Env) (requireBuiltin : Bool) : List Package × List String :=
  if requireBuiltin then
    match env.builtinDir with
    | some d => ([builtinPkg d], [(builtinPkg d).id])
    | none => ([], [])
  else ([], [])

/-- `Resolve` (driver.go): classify patterns (propagating hard failures
of explicit `file=` queries), inject stdlibs and test stdlibs when a
gno root is found, synthesize the builtin package on request, convert
the loaded packages (a loader failure aborts), then link imports. -/
def resolve (env : Env) (req : DriverRequest) (patterns : List String) :
    Except String DriverResponse :=
  match patternPhase env patterns with
  | .error e => .error e
  | .ok st =>
      let builtins := builtinPart env st.fst
      match env.load with
      | .error e => .error e
      | .ok loadedPkgs =>
          let converted := convertPhase env req loadedPkgs
          let allPkgs := stdlibAll env req ++ builtins.fst ++ converted.fst
          .ok { packages := link allPkgs, roots := builtins.snd ++ converted.snd }

/-! ### Characterization lemmas -/

/-- One resolver-loop step always appends exactly the rendered parse
errors of the file. -/
theorem riStep_errs (env : Env) (req : DriverRequest) (ne : Bool) (s : RState) (p : String) :
    (riStep env req ne s p).errs = s.errs ++ renderErrs p (effSrc env req p).impErr := by
  unfold riStep
  cases h : (effSrc env req p).impFile <;> simp [h]

/-- The error accumulator of the resolver loop over a file list. -/
theorem riFold_errs (env : Env) (req : DriverRequest) (ne : Bool) (l : List String) (s : RState) :
    (l.foldl (riStep env req ne) s).errs
      = s.errs ++ l.flatMap (fun p => renderErrs p (effSrc env req p).impErr) := by
  induction l generalizing s with
  | nil => simp
  | cons p rest ih =>
      simp only [List.foldl_cons, List.flatMap_cons, ih, riStep_errs, List.append_assoc]

/-- `resolveNameAndImports` appends, after the package's existing
errors, exactly the rendered imports-parse errors of each compiled file
in order. -/
theorem ri_errors (env : Env) (req : DriverRequest) (pkg : Package) :
    (resolveNameAndImports env req pkg).errors
      = pkg.errors ++
          pkg.compiledGoFiles.flatMap (fun p => renderErrs p (effSrc env req p).impErr) := by
  unfold resolveNameAndImports
  simp [riFold_errs]

/-- `resolveNameAndImports` only writes `Name`, `Imports`, `Errors`. -/
theorem ri_fixed (env : Env) (req : DriverRequest) (pkg : Package) :
    (resolveNameAndImports env req pkg).id = pkg.id ∧
    (resolveNameAndImports env req pkg).pkgPath = pkg.pkgPath ∧
    (resolveNameAndImports env req pkg).goFiles = pkg.goFiles ∧
    (resolveNameAndImports env req pkg).compiledGoFiles = pkg.compiledGoFiles :=
  ⟨rfl, rfl, rfl, rfl⟩

/-- A step's vote and import-set components ignore the error
accumulator. -/
theorem riStep_core_congr (env : Env) (req : DriverRequest) (ne : Bool) (s s' : RState)
    (p : String) (hns : s.ns = s'.ns) (him : s.imps = s'.imps) :
    (riStep env req ne s p).ns = (riStep env req ne s' p).ns ∧
    (riStep env req ne s p).imps = (riStep env req ne s' p).imps := by
  unfold riStep
  cases h : (effSrc env req p).impFile <;> simp [h, hns, him]

/-- The vote and import-set components of the whole loop ignore the
error accumulator. -/
theorem riFold_core_congr (env : Env) (req : DriverRequest) (ne : Bool) (l : List String)
    (s s' : RState) (hns : s.ns = s'.ns) (him : s.imps = s'.imps) :
    (l.foldl (riStep env req ne) s).ns = (l.foldl (riStep env req ne) s').ns ∧
    (l.foldl (riStep env req ne) s).imps = (l.foldl (riStep env req ne) s').imps := by
  induction l generalizing s s' with
  | nil => exact ⟨hns, him⟩
  | cons p rest ih =>
      have h := riStep_core_congr env req ne s s' p hns him
      exact ih _ _ h.1 h.2

/-- A file whose imports-parse produced no file node leaves the vote and
the import set untouched. -/
theorem riStep_skip (env : Env) (req : DriverRequest) (ne : Bool) (s : RState) (p : String)
    (h : (effSrc env req p).impFile = none) :
    (riStep env req ne s p).ns = s.ns ∧ (riStep env req ne s p).imps = s.imps := by
  unfold riStep
  simp [h]

/-- A directory entry that becomes a member file: `.gno` and not a
filetest fixture. -/
def memberFile (n : String) : Bool :=
  endsWithS n ".gno" && !endsWithS n "_filetest.gno"

/-- A member file that the test split moves to the external-test
package: test-suffixed name whose package clause parses to a
`_test`-suffixed name. -/
def externalTest (env : Env) (req : DriverRequest) (dir n : String) : Bool :=
  endsWithS n "_test.gno" &&
    (match (effSrc env req (joinPath dir n)).clauseName with
     | some nm => endsWithS nm "_test"
     | none => false)

/-- The classification-phase errors contributed by one directory entry:
the rendered clause-parse errors of member test-suffixed files. -/
def classifyErrsOf (env : Env) (req : DriverRequest) (dir n : String) : List PkgError :=
  if memberFile n && endsWithS n "_test.gno" then
    renderErrs (joinPath dir n) (effSrc env req (joinPath dir n)).clauseErr
  else []

/-- Closed form of the classification loop: the ordinary package gets
the member files that are not external tests, the external-test package
gets the external tests, and the errors are the clause-parse errors of
the member test-suffixed files, all in listing order. -/
theorem classifyFiles_eq (env : Env) (req : DriverRequest) (dir : String) (l : List String) :
    classifyFiles env req dir l =
      ((l.filter (fun n => memberFile n && !externalTest env req dir n)).map (joinPath dir),
       (l.filter (fun n => memberFile n && externalTest env req dir n)).map (joinPath dir),
       l.flatMap (classifyErrsOf env req dir)) := by
  induction l with
  | nil => rfl
  | cons n rest ih =>
      unfold classifyFiles
      rw [ih]
      simp only [List.filter_cons, List.map_cons, List.flatMap_cons, memberFile, externalTest,
        classifyErrsOf]
      by_cases h1 : endsWithS n ".gno" = true
      · by_cases h2 : endsWithS n "_filetest.gno" = true
        · simp [h1, h2]
        · by_cases h3 : endsWithS n "_test.gno" = true
          · cases hc : (effSrc env req (joinPath dir n)).clauseName with
            | some nm =>
                by_cases h4 : endsWithS nm "_test" = true
                · simp [h1, h2, h3, hc, h4]
                · simp [h1, h2, h3, hc, h4]
            | none => simp [h1, h2, h3, hc]
          · simp [h1, h2, h3]
      · simp [h1]

/-- `readPkg` on a readable directory: the two packages it returns,
with their file lists in closed form. -/
theorem readPkg_eq (env : Env) (req : DriverRequest) (dir pkgPath : String)
    (listing : List String) (hmem : lookupA env.memPkgs dir = some listing) :
    readPkg env req dir pkgPath =
      [resolveNameAndImports env req
        { id := pkgPath, pkgPath := pkgPath, name := ""
          goFiles := (listing.filter
              (fun n => memberFile n && !externalTest env req dir n)).map (joinPath dir)
          compiledGoFiles := (listing.filter
              (fun n => memberFile n && !externalTest env req dir n)).map (joinPath dir)
          errors := listing.flatMap (classifyErrsOf env req dir), imports := [] },
       resolveNameAndImports env req
        { id := pkgPath ++ "_test", pkgPath := pkgPath ++ "_test"
          name := (resolveNameAndImports env req
            { id := pkgPath, pkgPath := pkgPath, name := ""
              goFiles := (listing.filter
                  (fun n => memberFile n && !externalTest env req dir n)).map (joinPath dir)
              compiledGoFiles := (listing.filter
                  (fun n => memberFile n && !externalTest env req dir n)).map (joinPath dir)
              errors := listing.flatMap (classifyErrsOf env req dir), imports := [] }).name
              ++ "_test"
          goFiles := (listing.filter
              (fun n => memberFile n && externalTest env req dir n)).map (joinPath dir)
          compiledGoFiles := (listing.filter
              (fun n => memberFile n && externalTest env req dir n)).map (joinPath dir)
          errors := [], imports := [] }] := by
  unfold readPkg
  rw [hmem]
  simp only [classifyFiles_eq]

/-- `linkPkg` never changes a package's identity or file lists. -/
theorem linkPkg_fixed (pkgs : List Package) (pkg : Package) :
    (linkPkg pkgs pkg).pkgPath = pkg.pkgPath ∧
    (linkPkg pkgs pkg).id = pkg.id ∧
    (linkPkg pkgs pkg).goFiles = pkg.goFiles ∧
    (linkPkg pkgs pkg).errors = pkg.errors := by
  unfold linkPkg
  split <;> exact ⟨rfl, rfl, rfl, rfl⟩

/-- `findGoPkg` returns the index of the first discovered package whose
`PkgPath` matches. -/
theorem findGoPkg_some (pkgs : List Package) (p : String) (i : Nat)
    (h : findGoPkg pkgs p = some i) :
    ∃ hlt : i < pkgs.length,
      (pkgs.get ⟨i, hlt⟩).pkgPath = p ∧
        ∀ j, ∀ hj : j < pkgs.length, j < i → (pkgs.get ⟨j, hj⟩).pkgPath ≠ p := by
  induction pkgs generalizing i with
  | nil => simp [findGoPkg] at h
  | cons pkg rest ih =>
      unfold findGoPkg at h
      by_cases hp : pkg.pkgPath = p
      · rw [if_pos hp] at h
        cases h
        exact ⟨by simp, hp, fun j hj hji => by omega⟩
      · rw [if_neg hp] at h
        cases hfind : findGoPkg rest p with
        | none => rw [hfind] at h; simp at h
        | some i0 =>
            rw [hfind] at h
            replace h : some (i0 + 1) = some i := h
            cases h
            obtain ⟨hlt, hget, hfirst⟩ := ih i0 hfind
            refine ⟨by simpa using Nat.succ_lt_succ hlt, by simpa using hget, ?_⟩
            intro j hj hji
            cases j with
            | zero => simpa using hp
            | succ j0 =>
                have hj0 : j0 < rest.length := by simpa using hj
                have := hfirst j0 hj0 (by omega)
                simpa using this

/-- Any discovered package is a valid link target. -/
theorem findGoPkg_isSome (pkgs : List Package) (p : String)
    (h : ∃ P ∈ pkgs, P.pkgPath = p) : (findGoPkg pkgs p).isSome = true := by
  induction pkgs with
  | nil => simp at h
  | cons pkg rest ih =>
      unfold findGoPkg
      by_cases hp : pkg.pkgPath = p
      · simp [hp]
      · rw [if_neg hp]
        obtain ⟨P, hP, hPp⟩ := h
        rcases List.mem_cons.mp hP with rfl | hP'
        · exact absurd hPp hp
        · have := ih ⟨P, hP', hPp⟩
          cases hfind : findGoPkg rest p with
          | none => rw [hfind] at this; simp at this
          | some i => simp

/-- Whether an `Except` outcome is the error case. -/
def isErrE {α : Type} : Except String α → Bool
  | .error _ => true
  | .ok _ => false

/-- Bind of an `Except` error short-circuits. -/
theorem bindE_err {α β : Type} (e : String) (f : α → Except String β) :
    (Except.error e >>= f) = Except.error e := rfl

/-- Bind of an `Except` success applies the continuation. -/
theorem bindE_ok {α β : Type} (a : α) (f : α → Except String β) :
    (Except.ok a >>= f : Except String β) = f a := rfl

/-- The pattern loop fails exactly when the `listPackagesPath` expansion
of some `file=` pattern fails. -/
theorem patternFold_isErr (env : Env) (pats : List String) (st0 : Bool × List String) :
    isErrE (pats.foldlM (patternStep env) st0)
      = pats.any (fun pat =>
          startsWithS pat "file=" && isErrE (listPackagesPath env (fileQueryDir pat))) := by
  induction pats generalizing st0 with
  | nil => rfl
  | cons pat rest ih =>
      rw [List.foldlM_cons, List.any_cons]
      by_cases h1 : startsWithS pat "file=" = true
      · cases hl : listPackagesPath env (fileQueryDir pat) with
        | error e =>
            rw [show patternStep env st0 pat = Except.error e by simp [patternStep, h1, hl]]
            rw [bindE_err]
            simp [isErrE, h1, hl]
        | ok gs =>
            rw [show patternStep env st0 pat = Except.ok (st0.fst, st0.snd ++ gs) by
              simp [patternStep, h1, hl]]
            rw [bindE_ok, ih]
            simp [isErrE, h1, hl]
      · by_cases h2 : pat = "builtin"
        · rw [show patternStep env st0 pat = Except.ok (true, st0.snd) by
            subst h2
            simp [patternStep, show startsWithS "builtin" "file=" = false from by decide]]
          rw [bindE_ok, ih]
          simp [h1]
        · rw [show patternStep env st0 pat = Except.ok (st0.fst, st0.snd ++ [pat]) by
            simp [patternStep, h1, h2]]
          rw [bindE_ok, ih]
          simp [h1]

/-- A successful pattern loop sets `requireBuiltin` exactly when the
flag was already set or some pattern is the literal `builtin`. -/
theorem patternFold_builtin (env : Env) (pats : List String) (st0 st : Bool × List String)
    (h : pats.foldlM (patternStep env) st0 = .ok st) :
    st.fst = (st0.fst || pats.any (fun p => p = "builtin")) := by
  induction pats generalizing st0 with
  | nil =>
      cases h
      simp
  | cons pat rest ih =>
      rw [List.foldlM_cons] at h
      rw [List.any_cons]
      by_cases h1 : startsWithS pat "file=" = true
      · cases hl : listPackagesPath env (fileQueryDir pat) with
        | error e =>
            rw [show patternStep env st0 pat = Except.error e by simp [patternStep, h1, hl],
              bindE_err] at h
            exact absurd h (by simp)
        | ok gs =>
            rw [show patternStep env st0 pat = Except.ok (st0.fst, st0.snd ++ gs) by
              simp [patternStep, h1, hl], bindE_ok] at h
            have hpat : ¬pat = "builtin" := by
              intro hcontra
              rw [hcontra] at h1
              exact absurd h1 (by decide)
            rw [ih _ h]
            simp [hpat]
      · by_cases h2 : pat = "builtin"
        · rw [show patternStep env st0 pat = Except.ok (true, st0.snd) by
            subst h2
            simp [patternStep, show startsWithS "builtin" "file=" = false from by decide],
            bindE_ok] at h
          rw [ih _ h]
          simp [h2]
        · rw [show patternStep env st0 pat = Except.ok (st0.fst, st0.snd ++ [pat]) by
            simp [patternStep, h1, h2], bindE_ok] at h
          rw [ih _ h]
          simp [h2]

/-- `resolve` on a successful pattern phase and loader call is the
linked concatenation of the three discovery sources. -/
theorem resolve_ok_parts (env : Env) (req : DriverRequest) (pats : List String)
    (st : Bool × List String) (loaded : List LoadedPkg)
    (hpat : patternPhase env pats = .ok st) (hload : env.load = .ok loaded) :
    resolve env req pats = .ok
      { packages := link (stdlibAll env req ++ (builtinPart env st.fst).fst
          ++ (convertPhase env req loaded).fst)
        roots := (builtinPart env st.fst).snd ++ (convertPhase env req loaded).snd } := by
  unfold resolve
  rw [hpat, hload]

/-- Patching a package from the test-library directory never empties its
`GoFiles` (each processed entry ends with an append). -/
theorem patchFold_nonempty (testLibDir : String) (entries : List (String × Bool))
    (pkg : Package) (h : pkg.goFiles ≠ []) :
    (entries.foldl
      (fun pkg entry =>
        if entry.snd then pkg
        else
          let filename := entry.fst
          let isDot := filename.data.head? = some '.'
          if isDot ∨ ¬(endsWithS filename ".gno" = true) then pkg
          else
            let file := joinPath testLibDir filename
            { pkg with
              goFiles :=
                (pkg.goFiles.filter (fun src => ¬(baseName src = filename))) ++ [file]
              compiledGoFiles :=
                (pkg.compiledGoFiles.filter
                  (fun src => ¬(baseName src = filename))) ++ [file] })
      pkg).goFiles ≠ [] := by
  induction entries generalizing pkg with
  | nil => exact h
  | cons entry rest ih =>
      rw [List.foldl_cons]
      by_cases h1 : entry.snd = true
      · rw [if_pos h1]
        exact ih pkg h
      · rw [if_neg h1]
        by_cases h2 : entry.fst.data.head? = some '.' ∨ ¬(endsWithS entry.fst ".gno" = true)
        · rw [if_pos h2]
          exact ih pkg h
        · rw [if_neg h2]
          exact ih _ (by simp)

theorem testLibPatch_nonempty (env : Env) (testLibDir : String) (pkg : Package)
    (h : pkg.goFiles ≠ []) : (testLibPatch env testLibDir pkg).goFiles ≠ [] := by
  unfold testLibPatch
  cases lookupA env.readDirs testLibDir with
  | none => exact h
  | some entries => exact patchFold_nonempty testLibDir entries pkg h

/-- The inner loop of the stdlib walk appends only packages with member
files, and patching keeps them nonempty. -/
theorem stdlibInner_nonempty (env : Env) (testLibDir : String) (pkgs : List Package)
    (acc : List Package) (hacc : ∀ P ∈ acc, P.goFiles ≠ []) :
    ∀ P ∈ pkgs.foldl
        (fun acc pkg =>
          if pkg.goFiles.length = 0 then acc
          else acc ++ [testLibPatch env testLibDir pkg]) acc,
      P.goFiles ≠ [] := by
  induction pkgs generalizing acc with
  | nil => exact hacc
  | cons pkg rest ih =>
      rw [List.foldl_cons]
      by_cases h1 : pkg.goFiles.length = 0
      · rw [if_pos h1]
        exact ih acc hacc
      · rw [if_neg h1]
        refine ih _ ?_
        intro P hP
        rcases List.mem_append.mp hP with hP | hP
        · exact hacc P hP
        · rcases List.mem_singleton.mp hP with rfl
          exact testLibPatch_nonempty env testLibDir pkg
            (fun hnil => h1 (by rw [hnil]; rfl))

/-- Every package produced by the first stdlib walk has member files. -/
theorem stdlibPhase_nonempty (env : Env) (req : DriverRequest) (libsRoot testLibsRoot : String) :
    ∀ P ∈ stdlibPhase env req libsRoot testLibsRoot, P.goFiles ≠ [] := by
  unfold stdlibPhase
  generalize (lookupA env.walks libsRoot).getD [] = events
  induction events using List.reverseRecOn with
  | nil => intro P hP; simp at hP
  | append_singleton rest ev ih =>
      rw [List.foldl_append, List.foldl_cons, List.foldl_nil]
      by_cases h1 : ev.err.isSome = true
      · rw [if_pos h1]; exact ih
      · rw [if_neg h1]
        by_cases h2 : ev.isDir = true
        · rw [if_neg (by simp [h2])]
          by_cases h3 : ev.path = "."
          · rw [if_pos h3]; exact ih
          · rw [if_neg h3]
            exact stdlibInner_nonempty env _ _ _ ih
        · rw [if_pos (by simp [h2])]; exact ih

/-- Every package produced by the second stdlib walk has member files,
provided every already-discovered package had. -/
theorem testLibPhase_nonempty (env : Env) (req : DriverRequest) (testLibsRoot : String)
    (sofar : List Package) (hsofar : ∀ P ∈ sofar, P.goFiles ≠ []) :
    ∀ P ∈ testLibPhase env req testLibsRoot sofar, P.goFiles ≠ [] := by
  unfold testLibPhase
  generalize (lookupA env.walks testLibsRoot).getD [] = events
  induction events generalizing sofar with
  | nil => exact hsofar
  | cons ev rest ih =>
      rw [List.foldl_cons]
      by_cases h1 : ev.err.isSome = true
      · rw [if_pos h1]; exact ih sofar hsofar
      · rw [if_neg h1]
        by_cases h2 : ev.isDir = true
        · rw [if_neg (by simp [h2])]
          by_cases h3 : ev.path = "."
          · rw [if_pos h3]; exact ih sofar hsofar
          · rw [if_neg h3]
            by_cases h4 : sofar.any (fun p => p.pkgPath = ev.path) = true
            · rw [if_pos h4]; exact ih sofar hsofar
            · rw [if_neg h4]
              refine ih _ ?_
              generalize readPkg env req (joinPath testLibsRoot ev.path) ev.path = pkgs
              clear h4
              induction pkgs generalizing sofar with
              | nil => exact hsofar
              | cons pkg prest pih =>
                  rw [List.foldl_cons]
                  by_cases h5 : pkg.goFiles.length = 0
                  · rw [if_pos h5]
                    exact pih sofar hsofar
                  · rw [if_neg h5]
                    refine pih _ ?_
                    intro P hP
                    rcases List.mem_append.mp hP with hP | hP
                    · exact hsofar P hP
                    · rcases List.mem_singleton.mp hP with rfl
                      exact fun hnil => h5 (by rw [hnil]; rfl)
        · rw [if_pos (by simp [h2])]; exact ih sofar hsofar

/-- All injected stdlib packages (both walks) have member files. -/
theorem stdlibAll_nonempty (env : Env) (req : DriverRequest) :
    ∀ P ∈ stdlibAll env req, P.goFiles ≠ [] := by
  unfold stdlibAll
  cases env.gnoRoot with
  | none => intro P hP; simp at hP
  | some gnoRoot =>
      exact testLibPhase_nonempty env req _ _ (stdlibPhase_nonempty env req _ _)

/-- Both branches of one vote step produce the bumped counter map. -/
theorem bumpName_names (s : NState) (n : String) :
    (bumpName s n).names = bumpCount s.names n := by
  unfold bumpName
  by_cases h : s.bestCount < lookupCount (bumpCount s.names n) n
  · simp only [if_pos h]
  · simp only [if_neg h]

/-- Bumping a name increments exactly its own counter. -/
theorem lookupCount_bumpCount_self (a : List (String × Nat)) (n : String) :
    lookupCount (bumpCount a n) n = lookupCount a n + 1 := by
  induction a with
  | nil => simp [bumpCount, lookupCount]
  | cons kv rest ih =>
      obtain ⟨m, k⟩ := kv
      by_cases h : m = n
      · simp [bumpCount, lookupCount, h]
      · simp only [bumpCount, if_neg h]
        simp [lookupCount, List.find?, h] at ih ⊢
        exact ih

/-- Bumping a name leaves other counters unchanged. -/
theorem lookupCount_bumpCount_ne (a : List (String × Nat)) (m n : String) (h : ¬m = n) :
    lookupCount (bumpCount a m) n = lookupCount a n := by
  induction a with
  | nil => simp [bumpCount, lookupCount, List.find?, h]
  | cons kv rest ih =>
      obtain ⟨m0, k⟩ := kv
      by_cases h0 : m0 = m
      · subst h0
        simp [bumpCount, lookupCount, List.find?, h]
      · simp only [bumpCount, if_neg h0]
        by_cases h1 : m0 = n
        · simp [lookupCount, List.find?, h1]
        · simp [lookupCount, List.find?, h1] at ih ⊢
          exact ih

/-- The vote state reached after a list of package-clause names. -/
def namesFold (l : List String) : NState := l.foldl bumpName ⟨[], "", 0⟩

/-- After any run of the vote, a name's counter equals its number of
occurrences so far. -/
theorem namesFold_count (l : List String) (s : NState) (n : String) :
    lookupCount ((l.foldl bumpName s).names) n = lookupCount s.names n + l.count n := by
  induction l generalizing s with
  | nil => simp
  | cons m rest ih =>
      rw [List.foldl_cons, ih, bumpName_names, List.count_cons]
      by_cases h : m = n
      · subst h
        rw [lookupCount_bumpCount_self]
        simp
        omega
      · rw [lookupCount_bumpCount_ne _ _ _ h]
        simp [h]

/-- On paths outside the overlay where the disk agrees, the effective
bytes agree. -/
theorem effSrc_congr (env env' : Env) (req : DriverRequest)
    (hfiles : ∀ p, lookupA req.overlay p = none →
      lookupA env.files p = lookupA env'.files p)
    (p : String) : effSrc env req p = effSrc env' req p := by
  unfold effSrc
  cases h : lookupA req.overlay p with
  | some c => rfl
  | none =>
      unfold diskContent
      rw [hfiles p h]

/-- Classification only reads the environment through the effective
bytes. -/
theorem classifyFiles_congr (env env' : Env) (req : DriverRequest) (dir : String)
    (heff : ∀ p, effSrc env req p = effSrc env' req p) (l : List String) :
    classifyFiles env req dir l = classifyFiles env' req dir l := by
  induction l with
  | nil => rfl
  | cons n rest ih =>
      unfold classifyFiles
      rw [ih]
      simp only [heff]

/-- One resolver-loop step only reads the environment through the
effective bytes. -/
theorem riStep_congr (env env' : Env) (req : DriverRequest) (ne : Bool)
    (heff : ∀ p, effSrc env req p = effSrc env' req p) (s : RState) (p : String) :
    riStep env req ne s p = riStep env' req ne s p := by
  unfold riStep
  rw [heff p]

/-- `resolveNameAndImports` only reads the environment through the
effective bytes. -/
theorem ri_congr (env env' : Env) (req : DriverRequest)
    (heff : ∀ p, effSrc env req p = effSrc env' req p) (pkg : Package) :
    resolveNameAndImports env req pkg = resolveNameAndImports env' req pkg := by
  unfold resolveNameAndImports
  rw [show riStep env req (pkg.name = "") = riStep env' req (pkg.name = "") from
    funext (fun s => funext (fun p => riStep_congr env env' req _ heff s p))]

/-! ### Claim theorems -/

/-- C7: `Resolve` returns an error for the whole invocation exactly when
a hard failure occurs for an explicitly requested pattern: the
`listPackagesPath` expansion of an explicit `file=` query fails, or the
loader fails on the explicitly requested patterns (`gnopackages.Load`,
spec-modelled as the `load` environment outcome).  Stdlib-injection
failures, builtin-synthesis failures, per-file parse errors and
unresolvable imports never make `resolve` fail. -/
theorem C7_resolve_error_iff (env : Env) (req : DriverRequest) (pats : List String) :
    isErrE (resolve env req pats)
      = (pats.any (fun pat =>
            startsWithS pat "file=" && isErrE (listPackagesPath env (fileQueryDir pat)))
         || isErrE env.load) := by
  have hiso : isErrE (patternPhase env pats)
      = pats.any (fun pat =>
          startsWithS pat "file=" && isErrE (listPackagesPath env (fileQueryDir pat))) :=
    patternFold_isErr env pats (false, [])
  cases hp : patternPhase env pats with
  | error e =>
      have hres : resolve env req pats = .error e := by
        unfold resolve
        rw [hp]
      rw [hp] at hiso
      rw [hres, ← hiso]
      simp [isErrE]
  | ok st =>
      rw [hp] at hiso
      cases hl : env.load with
      | error e =>
          have hres : resolve env req pats = .error e := by
            unfold resolve
            rw [hp, hl]
          rw [hres, ← hiso]
          simp [isErrE]
      | ok loaded =>
          rw [resolve_ok_parts env req pats st loaded hp hl, ← hiso]
          simp [isErrE]

/-- C2: every parse performed during `readPkg` (test-split
classification and name/import extraction alike) depends only on the
effective bytes, which for an overlaid path are the overlay bytes:
changing (or removing) the on-disk content of overlaid paths cannot
change the result of `readPkg`. -/
theorem C2_overlay_precedence (env env' : Env) (req : DriverRequest) (dir pkgPath : String)
    (hmem : env.memPkgs = env'.memPkgs)
    (hfiles : ∀ p, lookupA req.overlay p = none →
      lookupA env.files p = lookupA env'.files p) :
    readPkg env req dir pkgPath = readPkg env' req dir pkgPath := by
  have heff := effSrc_congr env env' req hfiles
  unfold readPkg
  rw [hmem]
  cases lookupA env'.memPkgs dir with
  | none => rfl
  | some listing =>
      simp only [classifyFiles_congr env env' req dir heff, ri_congr env env' req heff]

/-- On-disk oracle of the overlay-precedence example: the file declares
`package old`. -/
def diskOldContent : Content :=
  { clauseName := some "old", clauseErr := .ok
    impFile := some { name := "old", imports := [] }, impErr := .ok }

/-- Overlay oracle of the overlay-precedence example: the overlay bytes
declare `package a` importing `"b"`. -/
def overlayAContent : Content :=
  { clauseName := some "a", clauseErr := .ok
    impFile := some { name := "a", imports := ["\"b\""] }, impErr := .ok }

/-- Environment whose disk holds `package old` at the overlaid path. -/
def envOverlayDisk : Env :=
  { memPkgs := [("/w/p", ["a.gno"])], files := [("/w/p/a.gno", diskOldContent)] }

/-- Environment in which the overlaid path does not exist on disk. -/
def envOverlayNoDisk : Env :=
  { memPkgs := [("/w/p", ["a.gno"])], files := [] }

/-- Request overlaying `/w/p/a.gno`. -/
def reqOverlay : DriverRequest := { overlay := [("/w/p/a.gno", overlayAContent)] }

/-- Witness for C2: with `pkg/a.gno` overlaid by `package a` importing
`"b"`, resolution is identical whether the disk says `package old` or
the file is absent from disk, and it yields package `a` importing `b`. -/
theorem C2_overlay_precedence_witness :
    readPkg envOverlayDisk reqOverlay "/w/p" "example.com/p"
        = readPkg envOverlayNoDisk reqOverlay "/w/p" "example.com/p" ∧
    (readPkg envOverlayDisk reqOverlay "/w/p" "example.com/p").map
        (fun p => (p.name, p.imports))
      = [("a", [("b", none)]), ("a_test", [])] := by
  constructor
  · refine C2_overlay_precedence envOverlayDisk envOverlayNoDisk reqOverlay "/w/p"
      "example.com/p" rfl ?_
    intro p hp
    by_cases he : "/w/p/a.gno" = p
    · subst he
      exact absurd hp (by decide)
    · simp [envOverlayDisk, envOverlayNoDisk, lookupA, List.find?, he]
  · decide

/-- The best name after one vote step, as a function of the previous
state. -/
theorem bumpName_best (s : NState) (n : String) :
    (bumpName s n).best =
      if s.bestCount < lookupCount (bumpCount s.names n) n then n else s.best := by
  unfold bumpName
  by_cases h : s.bestCount < lookupCount (bumpCount s.names n) n
  · simp only [if_pos h]
  · simp only [if_neg h]

/-- Environment for the majority-vote examples: each file parses to the
given package-clause name with no imports. -/
def voteEnv (l : List (String × String)) : Env :=
  { files := l.map (fun kv =>
      (kv.fst,
        { clauseName := some kv.snd, clauseErr := .ok
          impFile := some { name := kv.snd, imports := [] }, impErr := .ok })) }

/-- A bare package holding only its compiled file list. -/
def votePkg (fs : List String) : Package := { compiledGoFiles := fs }

/-- C3: package-name selection is the strict-majority-count heuristic:
after any prefix of clauses, one more clause `n` replaces the current
best name exactly when `n`'s new count strictly exceeds the current best
count, so ties are won by the first name to reach the tied count; in
particular clauses `x, y, x` resolve to `x`, clauses `x, y, y` resolve
to `y`, and clauses `x, y` resolve to `x` (checked through
`resolveNameAndImports` itself). -/
theorem C3_majority_name (l : List String) (n : String) :
    ((namesFold (l ++ [n])).best =
      if (namesFold l).bestCount < l.count n + 1 then n else (namesFold l).best) ∧
    (resolveNameAndImports (voteEnv [("f1", "x"), ("f2", "y"), ("f3", "x")]) {}
        (votePkg ["f1", "f2", "f3"])).name = "x" ∧
    (resolveNameAndImports (voteEnv [("f1", "x"), ("f2", "y"), ("f3", "y")]) {}
        (votePkg ["f1", "f2", "f3"])).name = "y" ∧
    (resolveNameAndImports (voteEnv [("f1", "x"), ("f2", "y")]) {}
        (votePkg ["f1", "f2"])).name = "x" := by
  refine ⟨?_, by decide, by decide, by decide⟩
  unfold namesFold
  rw [List.foldl_append, List.foldl_cons, List.foldl_nil, bumpName_best,
    lookupCount_bumpCount_self, namesFold_count l ⟨[], "", 0⟩ n]
  simp [lookupCount, List.find?]

/-- C4: the test split of `readPkg`: among the member files of a
readable directory, exactly those test-suffixed files whose package
clause parses to a `_test`-suffixed name are placed in the external-test
package file lists, and all other member files (including test-suffixed
files whose clause lacks the suffix or fails to parse) stay in the
ordinary package. -/
theorem C4_test_split (env : Env) (req : DriverRequest) (dir pkgPath : String)
    (listing : List String) (hmem : lookupA env.memPkgs dir = some listing) :
    ∃ pkg xTestPkg,
      readPkg env req dir pkgPath = [pkg, xTestPkg] ∧
      pkg.pkgPath = pkgPath ∧ xTestPkg.pkgPath = pkgPath ++ "_test" ∧
      pkg.goFiles = (listing.filter
        (fun n => memberFile n && !externalTest env req dir n)).map (joinPath dir) ∧
      pkg.compiledGoFiles = pkg.goFiles ∧
      xTestPkg.goFiles = (listing.filter
        (fun n => memberFile n && externalTest env req dir n)).map (joinPath dir) ∧
      xTestPkg.compiledGoFiles = xTestPkg.goFiles := by
  rw [readPkg_eq env req dir pkgPath listing hmem]
  refine ⟨_, _, rfl, (ri_fixed _ _ _).2.1, (ri_fixed _ _ _).2.1, ?_, ?_, ?_, ?_⟩
  · exact (ri_fixed _ _ _).2.2.1
  · rw [(ri_fixed _ _ _).2.2.1, (ri_fixed _ _ _).2.2.2]
  · exact (ri_fixed _ _ _).2.2.1
  · rw [(ri_fixed _ _ _).2.2.1, (ri_fixed _ _ _).2.2.2]

/-- Environment of the spec's test-split example: `a.gno` declares
`package p`, `a_test.gno` declares `package p`, `b_test.gno` declares
`package p_test`. -/
def envSplit : Env :=
  { memPkgs := [("/w/p", ["a.gno", "a_test.gno", "b_test.gno"])]
    files :=
      [("/w/p/a.gno",
        { clauseName := some "p", clauseErr := .ok
          impFile := some { name := "p", imports := [] }, impErr := .ok }),
       ("/w/p/a_test.gno",
        { clauseName := some "p", clauseErr := .ok
          impFile := some { name := "p", imports := [] }, impErr := .ok }),
       ("/w/p/b_test.gno",
        { clauseName := some "p_test", clauseErr := .ok
          impFile := some { name := "p_test", imports := [] }, impErr := .ok })] }

/-- Witness for C4 at the spec's example: package `p` keeps
`{a.gno, a_test.gno}` and `p_test` gets `{b_test.gno}`. -/
theorem C4_test_split_witness :
    (∃ pkg xTestPkg,
      readPkg envSplit {} "/w/p" "example.com/p" = [pkg, xTestPkg] ∧
      pkg.pkgPath = "example.com/p" ∧ xTestPkg.pkgPath = "example.com/p" ++ "_test" ∧
      pkg.goFiles = ((["a.gno", "a_test.gno", "b_test.gno"] : List String).filter
        (fun n => memberFile n && !externalTest envSplit {} "/w/p" n)).map (joinPath "/w/p") ∧
      pkg.compiledGoFiles = pkg.goFiles ∧
      xTestPkg.goFiles = ((["a.gno", "a_test.gno", "b_test.gno"] : List String).filter
        (fun n => memberFile n && externalTest envSplit {} "/w/p" n)).map (joinPath "/w/p") ∧
      xTestPkg.compiledGoFiles = xTestPkg.goFiles) ∧
    (readPkg envSplit {} "/w/p" "example.com/p").map (fun p => (p.name, p.goFiles))
      = [("p", ["/w/p/a.gno", "/w/p/a_test.gno"]), ("p_test", ["/w/p/b_test.gno"])] :=
  ⟨C4_test_split envSplit {} "/w/p" "example.com/p"
      ["a.gno", "a_test.gno", "b_test.gno"] (by decide), by decide⟩

/-- C8: when parsing a member file fails during name/import resolution,
its rendered errors (one per parser error position, or one synthetic
entry at line 1, all of kind `ParseError`, never empty) are appended to
the package's errors in file order, and when the failed parse yields no
file node the names and imports computed from the sibling files are
exactly those computed without the malformed file. -/
theorem C8_parse_failure_isolated (env : Env) (req : DriverRequest) (pkg : Package)
    (l1 l2 : List String) (b : String)
    (hfiles : pkg.compiledGoFiles = l1 ++ b :: l2)
    (hbad : (effSrc env req b).impFile = none) :
    (resolveNameAndImports env req pkg).errors
      = pkg.errors ++ (l1 ++ b :: l2).flatMap
          (fun p => renderErrs p (effSrc env req p).impErr) ∧
    ((effSrc env req b).impErr ≠ .ok → renderErrs b (effSrc env req b).impErr ≠ [] ∧
      ∀ e ∈ renderErrs b (effSrc env req b).impErr, e.kind = .parseError) ∧
    (∀ m, (effSrc env req b).impErr = .other m →
      renderErrs b (effSrc env req b).impErr = [⟨b ++ ":1", m, .parseError⟩]) ∧
    (resolveNameAndImports env req pkg).name
      = (resolveNameAndImports env req
          { pkg with compiledGoFiles := l1 ++ l2 }).name ∧
    (resolveNameAndImports env req pkg).imports
      = (resolveNameAndImports env req
          { pkg with compiledGoFiles := l1 ++ l2 }).imports := by
  have hkey : ∀ ne : Bool,
      ((l1 ++ b :: l2).foldl (riStep env req ne) ⟨⟨[], "", 0⟩, [], []⟩).ns
        = ((l1 ++ l2).foldl (riStep env req ne) ⟨⟨[], "", 0⟩, [], []⟩).ns ∧
      ((l1 ++ b :: l2).foldl (riStep env req ne) ⟨⟨[], "", 0⟩, [], []⟩).imps
        = ((l1 ++ l2).foldl (riStep env req ne) ⟨⟨[], "", 0⟩, [], []⟩).imps := by
    intro ne
    rw [List.foldl_append, List.foldl_append, List.foldl_cons]
    have hskip := riStep_skip env req ne (l1.foldl (riStep env req ne) ⟨⟨[], "", 0⟩, [], []⟩) b hbad
    exact riFold_core_congr env req ne l2 _ _ hskip.1 hskip.2
  refine ⟨?_, ?_, ?_, ?_, ?_⟩
  · rw [ri_errors, hfiles]
  · intro hne
    cases he : (effSrc env req b).impErr with
    | ok => exact absurd he hne
    | errList hd tl => exact ⟨by simp [renderErrs], by simp [renderErrs]⟩
    | other m => exact ⟨by simp [renderErrs], by simp [renderErrs]⟩
  · intro m hm
    rw [hm]
    rfl
  · show (resolveNameAndImports env req pkg).name = _
    unfold resolveNameAndImports
    rw [hfiles]
    have hn : ({ pkg with compiledGoFiles := l1 ++ l2 } : Package).name = pkg.name := rfl
    simp only [hn]
    rw [(hkey (pkg.name = "")).1]
  · show (resolveNameAndImports env req pkg).imports = _
    unfold resolveNameAndImports
    rw [hfiles]
    have hn : ({ pkg with compiledGoFiles := l1 ++ l2 } : Package).name = pkg.name := rfl
    simp only [hn]
    rw [(hkey (pkg.name = "")).2]

/-- Environment of the C8 witness: `fbad` fails the imports-only parse
with one positioned error; `f1`, `f2` parse fine. -/
def envBadParse : Env :=
  { files :=
      [("f1",
        { clauseName := some "p", clauseErr := .ok
          impFile := some { name := "p", imports := ["\"dep\""] }, impErr := .ok }),
       ("fbad",
        { clauseName := none
          clauseErr := .errList { pos := "fbad:3:1", msg := "expected declaration" } []
          impFile := none
          impErr := .errList { pos := "fbad:3:1", msg := "expected declaration" } [] }),
       ("f2",
        { clauseName := some "p", clauseErr := .ok
          impFile := some { name := "p", imports := ["\"dep2\""] }, impErr := .ok })] }

/-- Package of the C8 witness. -/
def pkgBadParse : Package := { compiledGoFiles := ["f1", "fbad", "f2"] }

/-- Witness for C8: with `fbad` malformed between `f1` and `f2`, the
name and imports equal those of the run without `fbad`, the parse error
is recorded, and the sibling imports `dep`, `dep2` both survive. -/
theorem C8_parse_failure_isolated_witness :
    (resolveNameAndImports envBadParse {} pkgBadParse).name
      = (resolveNameAndImports envBadParse {}
          { pkgBadParse with compiledGoFiles := ["f1"] ++ ["f2"] }).name ∧
    (resolveNameAndImports envBadParse {} pkgBadParse).imports
      = (resolveNameAndImports envBadParse {}
          { pkgBadParse with compiledGoFiles := ["f1"] ++ ["f2"] }).imports ∧
    (resolveNameAndImports envBadParse {} pkgBadParse).errors
      = pkgBadParse.errors ++ (["f1"] ++ "fbad" :: ["f2"]).flatMap
          (fun p => renderErrs p (effSrc envBadParse {} p).impErr) ∧
    (resolveNameAndImports envBadParse {} pkgBadParse).errors
      = [{ pos := "fbad:3:1", msg := "expected declaration", kind := .parseError }] ∧
    (resolveNameAndImports envBadParse {} pkgBadParse).name = "p" ∧
    (resolveNameAndImports envBadParse {} pkgBadParse).imports
      = [("dep", none), ("dep2", none)] := by
  have h := C8_parse_failure_isolated envBadParse {} pkgBadParse ["f1"] ["f2"] "fbad" rfl rfl
  exact ⟨h.2.2.2.1, h.2.2.2.2, h.1, by decide, by decide, by decide⟩

/-- C10: a test-suffixed member file whose package-clause parse fails
entirely (no file node) is retained in the ordinary package, and its
parse errors are appended twice to that package's errors: once by the
clause-only parse of the test split and once more by the imports-only
parse of name/import resolution (which, failing at the clause, reports
the same error list). -/
theorem C10_double_errors (env : Env) (req : DriverRequest) (dir pkgPath : String)
    (l1 l2 : List String) (n : String)
    (hmem : lookupA env.memPkgs dir = some (l1 ++ n :: l2))
    (hgno : endsWithS n ".gno" = true)
    (hft : endsWithS n "_filetest.gno" = false)
    (htest : endsWithS n "_test.gno" = true)
    (hclause : (effSrc env req (joinPath dir n)).clauseName = none)
    (hfail : ¬(effSrc env req (joinPath dir n)).clauseErr = .ok)
    (hsame : (effSrc env req (joinPath dir n)).impErr
      = (effSrc env req (joinPath dir n)).clauseErr) :
    ∃ pkg xTestPkg a b c,
      readPkg env req dir pkgPath = [pkg, xTestPkg] ∧
      joinPath dir n ∈ pkg.compiledGoFiles ∧
      renderErrs (joinPath dir n) (effSrc env req (joinPath dir n)).clauseErr ≠ [] ∧
      pkg.errors
        = a ++ renderErrs (joinPath dir n) (effSrc env req (joinPath dir n)).clauseErr
            ++ b ++ renderErrs (joinPath dir n) (effSrc env req (joinPath dir n)).clauseErr
            ++ c := by
  have hmf : memberFile n = true := by simp [memberFile, hgno, hft]
  have hxt : externalTest env req dir n = false := by simp [externalTest, hclause]
  have hq : (memberFile n && !externalTest env req dir n) = true := by simp [hmf, hxt]
  have hcls : classifyErrsOf env req dir n
      = renderErrs (joinPath dir n) (effSrc env req (joinPath dir n)).clauseErr := by
    simp [classifyErrsOf, hmf, htest]
  have hne : renderErrs (joinPath dir n) (effSrc env req (joinPath dir n)).clauseErr ≠ [] := by
    cases hE : (effSrc env req (joinPath dir n)).clauseErr with
    | ok => exact absurd hE hfail
    | errList hd tl => simp [renderErrs]
    | other m => simp [renderErrs]
  have hsplit : (l1 ++ n :: l2).filter
        (fun m => memberFile m && !externalTest env req dir m)
      = l1.filter (fun m => memberFile m && !externalTest env req dir m)
        ++ n :: l2.filter (fun m => memberFile m && !externalTest env req dir m) := by
    rw [List.filter_append, List.filter_cons, if_pos hq]
  rw [readPkg_eq env req dir pkgPath _ hmem]
  refine ⟨_, _,
    l1.flatMap (classifyErrsOf env req dir),
    l2.flatMap (classifyErrsOf env req dir)
      ++ ((l1.filter (fun m => memberFile m && !externalTest env req dir m)).map
          (joinPath dir)).flatMap (fun p => renderErrs p (effSrc env req p).impErr),
    ((l2.filter (fun m => memberFile m && !externalTest env req dir m)).map
        (joinPath dir)).flatMap (fun p => renderErrs p (effSrc env req p).impErr),
    rfl, ?_, hne, ?_⟩
  · rw [(ri_fixed env req _).2.2.2]
    show joinPath dir n ∈ ((l1 ++ n :: l2).filter
        (fun m => memberFile m && !externalTest env req dir m)).map (joinPath dir)
    rw [hsplit]
    simp
  · rw [ri_errors]
    show (l1 ++ n :: l2).flatMap (classifyErrsOf env req dir)
        ++ (((l1 ++ n :: l2).filter
            (fun m => memberFile m && !externalTest env req dir m)).map
          (joinPath dir)).flatMap (fun p => renderErrs p (effSrc env req p).impErr)
        = _
    rw [hsplit]
    simp only [List.flatMap_append, List.flatMap_cons, List.map_append, List.map_cons,
      hcls, hsame, List.append_assoc]

/-- Environment of the C10 witness: `bad_test.gno` fails both parses
with the same positioned error. -/
def envDouble : Env :=
  { memPkgs := [("/w/q", ["a.gno", "bad_test.gno"])]
    files :=
      [("/w/q/a.gno",
        { clauseName := some "q", clauseErr := .ok
          impFile := some { name := "q", imports := [] }, impErr := .ok }),
       ("/w/q/bad_test.gno",
        { clauseName := none
          clauseErr := .errList { pos := "/w/q/bad_test.gno:2:1", msg := "expected package" } []
          impFile := none
          impErr := .errList { pos := "/w/q/bad_test.gno:2:1", msg := "expected package" } [] })] }

/-- Witness for C10: the unparsable `bad_test.gno` is retained and its
error shows up twice in the ordinary package's errors. -/
theorem C10_double_errors_witness :
    (∃ pkg xTestPkg a b c,
      readPkg envDouble {} "/w/q" "q" = [pkg, xTestPkg] ∧
      joinPath "/w/q" "bad_test.gno" ∈ pkg.compiledGoFiles ∧
      renderErrs (joinPath "/w/q" "bad_test.gno")
        (effSrc envDouble {} (joinPath "/w/q" "bad_test.gno")).clauseErr ≠ [] ∧
      pkg.errors
        = a ++ renderErrs (joinPath "/w/q" "bad_test.gno")
              (effSrc envDouble {} (joinPath "/w/q" "bad_test.gno")).clauseErr
            ++ b ++ renderErrs (joinPath "/w/q" "bad_test.gno")
              (effSrc envDouble {} (joinPath "/w/q" "bad_test.gno")).clauseErr
            ++ c) ∧
    (readPkg envDouble {} "/w/q" "q").head?.map (fun p => p.errors)
      = some [{ pos := "/w/q/bad_test.gno:2:1", msg := "expected package", kind := .parseError },
              { pos := "/w/q/bad_test.gno:2:1", msg := "expected package", kind := .parseError }] :=
  ⟨C10_double_errors envDouble {} "/w/q" "q" ["a.gno"] [] "bad_test.gno"
      (by decide) (by decide) (by decide) (by decide) (by decide) (by decide) (by decide),
   by decide⟩

/-- Environment refuting C1 as stated: a loaded package whose descriptor
declares module path `builtin` imports an unresolvable path; the linker
skips every package whose `PkgPath` is `builtin`, so the key survives
with a nil value. -/
def envLinkSkip : Env :=
  { memPkgs := [("/w/b", ["b.gno"])]
    files :=
      [("/w/b/b.gno",
        { clauseName := some "b", clauseErr := .ok
          impFile := some { name := "b", imports := ["\"nope\""] }, impErr := .ok })]
    load := .ok [{ importPath := "example.com/b", dirPath := "/w/b"
                   modPath := some "builtin", matched := true }] }

/-- The response of the C1 counterexample run. -/
def respLinkSkip : DriverResponse := (resolve envLinkSkip {} []).toOption.getD {}

/-- Counterexample to C1 as stated: after `Resolve` returns, the
package with `PkgPath = "builtin"` still carries the import key `nope`
with a nil value — the linker never touches builtin-pathed importers,
so not every surviving key points at a discovered package. -/
theorem C1_counterexample :
    (resolve envLinkSkip {} []).toOption = some respLinkSkip ∧
    (∃ P ∈ respLinkSkip.packages, ("nope", (none : Option Nat)) ∈ P.imports) ∧
    ¬(∀ P ∈ respLinkSkip.packages, ∀ kv ∈ P.imports,
        ∃ i : Fin respLinkSkip.packages.length,
          kv.snd = some i.1 ∧ (respLinkSkip.packages.get i).pkgPath = kv.fst) :=
  ⟨rfl, by decide, by decide⟩

/-- C1 (amended): for every package in the response other than the
builtin-pathed ones (which the linker skips; the synthesized builtin has
no import entries), every import key that survives linking points, by
identity, at a response package whose `PkgPath` equals the key —
unresolvable keys having been deleted. -/
theorem get_map_aux {A B : Type} (f : A → B) (l : List A) (i : Nat)
    (h : i < (l.map f).length) (h2 : i < l.length) :
    (l.map f).get ⟨i, h⟩ = f (l.get ⟨i, h2⟩) := by
  induction l generalizing i with
  | nil => simp at h2
  | cons a rest ih =>
      cases i with
      | zero => rfl
      | succ j => exact ih j (by simpa using h) (by simpa using h2)

theorem C1_link_completeness (env : Env) (req : DriverRequest) (pats : List String)
    (resp : DriverResponse) (hok : resolve env req pats = .ok resp)
    (P : Package) (hP : P ∈ resp.packages) (hnb : ¬P.pkgPath = "builtin")
    (k : String) (v : Option Nat) (hkv : (k, v) ∈ P.imports) :
    ∃ i, v = some i ∧ ∃ hlt : i < resp.packages.length,
      (resp.packages.get ⟨i, hlt⟩).pkgPath = k := by
  unfold resolve at hok
  cases hpat : patternPhase env pats with
  | error e =>
      rw [hpat] at hok
      exact absurd hok (by simp)
  | ok st =>
      rw [hpat] at hok
      cases hload : env.load with
      | error e =>
          rw [hload] at hok
          exact absurd hok (by simp)
      | ok loaded =>
          rw [hload] at hok
          replace hok : Except.ok (ε := String)
              (DriverResponse.mk
                (link (stdlibAll env req ++ (builtinPart env st.fst).fst
                  ++ (convertPhase env req loaded).fst))
                ((builtinPart env st.fst).snd ++ (convertPhase env req loaded).snd))
              = Except.ok resp := hok
          injection hok with hok
          subst hok
          set A := stdlibAll env req ++ (builtinPart env st.fst).fst
            ++ (convertPhase env req loaded).fst with hA
          replace hP : P ∈ link A := hP
          obtain ⟨Q, hQ, hPQ⟩ := List.mem_map.mp hP
          subst hPQ
          have hQnb : ¬Q.pkgPath = "builtin" := fun hqb =>
            hnb (by rw [(linkPkg_fixed _ Q).1, hqb])
          have himp : (linkPkg A Q).imports
              = Q.imports.filterMap
                  (fun kv => (findGoPkg A kv.fst).map (fun i => (kv.fst, some i))) := by
            unfold linkPkg
            rw [if_neg hQnb]
          rw [himp] at hkv
          obtain ⟨kv0, hkv0, hf⟩ := List.mem_filterMap.mp hkv
          cases hfind : findGoPkg A kv0.fst with
          | none =>
              rw [hfind] at hf
              simp at hf
          | some i =>
              rw [hfind] at hf
              replace hf : some (kv0.fst, some i) = some (k, v) := hf
              injection hf with hf
              cases hf
              obtain ⟨hlt, hget, hfirst⟩ := findGoPkg_some _ kv0.fst i hfind
              have hlt2 : i < (link A).length := by
                simpa [link] using hlt
              refine ⟨i, rfl, hlt2, ?_⟩
              show ((link A).get ⟨i, hlt2⟩).pkgPath = kv0.fst
              have hgm : (link A).get ⟨i, hlt2⟩ = linkPkg A (A.get ⟨i, hlt⟩) :=
                get_map_aux (linkPkg A) A i (by simpa [link] using hlt) hlt
              rw [hgm, (linkPkg_fixed _ _).1]
              exact hget

/-- Environment of the C1 witness: package `q` imports discovered
package `a`. -/
def envLinkW : Env :=
  { memPkgs := [("/w/a", ["a.gno"]), ("/w/q", ["q.gno"])]
    files :=
      [("/w/a/a.gno",
        { clauseName := some "a", clauseErr := .ok
          impFile := some { name := "a", imports := [] }, impErr := .ok }),
       ("/w/q/q.gno",
        { clauseName := some "q", clauseErr := .ok
          impFile := some { name := "q", imports := ["\"example.com/a\""] }, impErr := .ok })]
    load := .ok [{ importPath := "example.com/a", dirPath := "/w/a"
                   modPath := some "example.com/a", matched := true },
                 { importPath := "example.com/q", dirPath := "/w/q"
                   modPath := some "example.com/q", matched := true }] }

/-- The response of the C1 witness run. -/
def respLinkW : DriverResponse := (resolve envLinkW {} []).toOption.getD {}

/-- The package `example.com/q` of the C1 witness response. -/
def pkgLinkW : Package := (respLinkW.packages.get? 2).getD {}

/-- Witness for the amended C1: the surviving key `example.com/a` of
package `q` points at the response package of that path. -/
theorem C1_link_completeness_witness :
    ∃ i, (some 0 : Option Nat) = some i ∧ ∃ hlt : i < respLinkW.packages.length,
      (respLinkW.packages.get ⟨i, hlt⟩).pkgPath = "example.com/a" :=
  C1_link_completeness envLinkW {} [] respLinkW rfl pkgLinkW (by decide) (by decide)
    "example.com/a" (some 0) (by decide)

/-- Environment refuting C5 as stated: one query-pattern package with a
single non-test file; `readPkg` still materializes the external-test
sibling, and the conversion loop appends it without the
`len(GoFiles) > 0` filter. -/
def envEmptyXTest : Env :=
  { memPkgs := [("/w/p", ["a.gno"])]
    files :=
      [("/w/p/a.gno",
        { clauseName := some "p", clauseErr := .ok
          impFile := some { name := "p", imports := [] }, impErr := .ok })]
    load := .ok [{ importPath := "example.com/p", dirPath := "/w/p"
                   modPath := some "example.com/p", matched := true }] }

/-- The response of the C5 counterexample run. -/
def respEmptyXTest : DriverResponse := (resolve envEmptyXTest {} []).toOption.getD {}

/-- Counterexample to C5 as stated: the response contains a package
(the external-test sibling `example.com/p_test`) with no errors and an
empty `GoFiles`. -/
theorem C5_counterexample :
    (resolve envEmptyXTest {} []).toOption = some respEmptyXTest ∧
    (∃ P ∈ respEmptyXTest.packages, P.errors = [] ∧ P.goFiles = []) ∧
    ¬(∀ P ∈ respEmptyXTest.packages, P.errors = [] → P.goFiles ≠ []) :=
  ⟨rfl, by decide, by decide⟩

/-- C5 (amended): the `len(GoFiles) > 0` filter does hold for every
injected package: all packages produced by the stdlib walks and the
synthesized builtin have member files (query-pattern conversions are
appended unfiltered). -/
theorem C5_injected_nonempty (env : Env) (req : DriverRequest) (d : String) (P : Package)
    (hP : P ∈ stdlibAll env req ++ [builtinPkg d]) :
    P.goFiles ≠ [] := by
  rcases List.mem_append.mp hP with h | h
  · exact stdlibAll_nonempty env req P h
  · rcases List.mem_singleton.mp h with rfl
    simp [builtinPkg]

/-- Environment of the C5 witness: one stdlib directory `strings` with
one member file. -/
def envStdW : Env :=
  { gnoRoot := some "/r"
    walks := [("/r/gnovm/stdlibs", [{ path := "strings", isDir := true, err := none }])]
    memPkgs := [("/r/gnovm/stdlibs/strings", ["s.gno"])]
    files :=
      [("/r/gnovm/stdlibs/strings/s.gno",
        { clauseName := some "strings", clauseErr := .ok
          impFile := some { name := "strings", imports := [] }, impErr := .ok })] }

/-- Witness for the amended C5: the injected `strings` package and the
synthesized builtin both have member files. -/
theorem C5_injected_nonempty_witness :
    (((stdlibAll envStdW {}).get? 0).getD {}).goFiles ≠ [] ∧
    (builtinPkg "/b").goFiles ≠ [] :=
  ⟨C5_injected_nonempty envStdW {} "/b" (((stdlibAll envStdW {}).get? 0).getD {}) (by decide),
   C5_injected_nonempty {} {} "/b" (builtinPkg "/b") (by decide)⟩

/-- Environment refuting the lookup half of C6: package `p` imports the
path of its own external-test sibling. -/
def envTestTarget : Env :=
  { memPkgs := [("/w/p", ["a.gno"])]
    files :=
      [("/w/p/a.gno",
        { clauseName := some "p", clauseErr := .ok
          impFile := some { name := "p", imports := ["\"example.com/p_test\""] }
          impErr := .ok })]
    load := .ok [{ importPath := "example.com/p", dirPath := "/w/p"
                   modPath := some "example.com/p", matched := true }] }

/-- The response of the C6 counterexample run. -/
def respTestTarget : DriverResponse := (resolve envTestTarget {} []).toOption.getD {}

/-- Counterexample to C6 as stated: the import key `example.com/p_test`
is resolved against the discovered external-test package (the linker
looks imports up among all discovered packages, test packages included)
instead of being deleted as a key with no non-test target. -/
theorem C6_counterexample :
    (resolve envTestTarget {} []).toOption = some respTestTarget ∧
    (respTestTarget.packages.get? 0).map (fun p => p.imports)
      = some [("example.com/p_test", some 1)] ∧
    (respTestTarget.packages.get? 1).map (fun p => (p.pkgPath, p.goFiles))
      = some ("example.com/p_test", []) :=
  ⟨rfl, by decide, by decide⟩

/-- C6 (amended): the linker looks each import key up among all
discovered packages — external-test packages included — taking the
first `PkgPath` match in discovery order; packages whose `PkgPath` is
`builtin` are never iterated as importers, and any discovered package
(the builtin included) is a valid lookup target. -/
theorem C6_lookup_all_packages (pkgs : List Package) (pkg : Package) (k : String) (i : Nat) :
    (pkg.pkgPath = "builtin" → linkPkg pkgs pkg = pkg) ∧
    (findGoPkg pkgs k = some i →
      ∃ hlt : i < pkgs.length, (pkgs.get ⟨i, hlt⟩).pkgPath = k ∧
        ∀ j, ∀ hj : j < pkgs.length, j < i → ¬(pkgs.get ⟨j, hj⟩).pkgPath = k) ∧
    ((∃ P ∈ pkgs, P.pkgPath = k) → (findGoPkg pkgs k).isSome = true) := by
  refine ⟨?_, ?_, findGoPkg_isSome pkgs k⟩
  · intro h
    unfold linkPkg
    rw [if_pos h]
  · intro h
    obtain ⟨hlt, hget, hfirst⟩ := findGoPkg_some pkgs k i h
    exact ⟨hlt, hget, hfirst⟩

/-- Discovered packages of the C6 witness: the builtin and an
external-test package. -/
def pkgsW6 : List Package := [builtinPkg "/b", { pkgPath := "example.com/p_test" }]

/-- A builtin-pathed importer for the C6 witness. -/
def pkgW6 : Package := { pkgPath := "builtin", imports := [("x", none)] }

/-- Witness for the amended C6: the builtin-pathed importer is left
untouched, and the external-test package is found as a first-match
lookup target. -/
theorem C6_lookup_all_packages_witness :
    linkPkg pkgsW6 pkgW6 = pkgW6 ∧
    (∃ hlt : 1 < pkgsW6.length, (pkgsW6.get ⟨1, hlt⟩).pkgPath = "example.com/p_test" ∧
      ∀ j, ∀ hj : j < pkgsW6.length, j < 1 →
        ¬(pkgsW6.get ⟨j, hj⟩).pkgPath = "example.com/p_test") ∧
    (findGoPkg pkgsW6 "example.com/p_test").isSome = true :=
  ⟨(C6_lookup_all_packages pkgsW6 pkgW6 "example.com/p_test" 1).1 rfl,
   (C6_lookup_all_packages pkgsW6 pkgW6 "example.com/p_test" 1).2.1 (by decide),
   (C6_lookup_all_packages pkgsW6 pkgW6 "example.com/p_test" 1).2.2
     ⟨{ pkgPath := "example.com/p_test" }, by decide, by decide⟩⟩

/-- Counterexample to C9 as stated: with the builtin directory not
locatable (`getBuiltinPkg` fails), requesting pattern `builtin` yields a
response with no builtin package and no roots — the failure is silently
swallowed. -/
theorem C9_counterexample :
    (resolve { builtinDir := none } {} ["builtin"]).toOption
      = some { packages := [], roots := [] } ∧
    ¬(∃ P ∈ ({ packages := [], roots := [] } : DriverResponse).packages,
        P.pkgPath = "builtin") :=
  ⟨rfl, by decide⟩

/-- The packages converted from the loader outcome (empty on loader
failure). -/
def convertedOf (env : Env) (req : DriverRequest) : List Package :=
  match env.load with
  | .ok loaded => (convertPhase env req loaded).fst
  | .error _ => []

/-- The predicate on `Package` values preserved by linking is counted
identically before and after linking. -/
theorem link_countP (pkgs : List Package) (pr : Package → Bool)
    (hpr : ∀ q, pr (linkPkg pkgs q) = pr q) :
    (link pkgs).countP pr = pkgs.countP pr := by
  unfold link
  rw [List.countP_map]
  refine List.countP_congr ?_
  intro a _
  simp [Function.comp, hpr a]

/-- C9 (amended): when the patterns include the literal `builtin`, the
builtin directory is located, and no stdlib-injected or query-converted
package carries the path `builtin`, the response contains exactly one
package with `PkgPath = "builtin"`, whose ID `builtin` is among the
roots. -/
theorem C9_builtin_roundtrip (env : Env) (req : DriverRequest) (pats : List String)
    (resp : DriverResponse) (hok : resolve env req pats = .ok resp)
    (hbpat : pats.any (fun p => p = "builtin") = true)
    (d : String) (hdir : env.builtinDir = some d)
    (hstd : ∀ P ∈ stdlibAll env req, ¬P.pkgPath = "builtin")
    (hconv : ∀ P ∈ convertedOf env req, ¬P.pkgPath = "builtin") :
    resp.packages.countP (fun p => p.pkgPath = "builtin") = 1 ∧
    "builtin" ∈ resp.roots ∧
    ∃ P ∈ resp.packages, P.pkgPath = "builtin" ∧ P.id = "builtin" ∧ P.id ∈ resp.roots := by
  unfold resolve at hok
  cases hpat : patternPhase env pats with
  | error e =>
      rw [hpat] at hok
      exact absurd hok (by simp)
  | ok st =>
      rw [hpat] at hok
      have hst : st.fst = true := by
        have hfold := patternFold_builtin env pats (false, []) st hpat
        rw [hbpat] at hfold
        simpa using hfold
      cases hload : env.load with
      | error e =>
          rw [hload] at hok
          exact absurd hok (by simp)
      | ok loaded =>
          rw [hload] at hok
          replace hok : Except.ok (ε := String)
              (DriverResponse.mk
                (link (stdlibAll env req ++ (builtinPart env st.fst).fst
                  ++ (convertPhase env req loaded).fst))
                ((builtinPart env st.fst).snd ++ (convertPhase env req loaded).snd))
              = Except.ok resp := hok
          injection hok with hok
          subst hok
          have hbp : builtinPart env st.fst = ([builtinPkg d], ["builtin"]) := by
            rw [hst]
            unfold builtinPart
            rw [if_pos rfl, hdir]
            rfl
          have hconv2 : ∀ P ∈ (convertPhase env req loaded).fst, ¬P.pkgPath = "builtin" := by
            intro P hPm
            apply hconv
            unfold convertedOf
            rw [hload]
            exact hPm
          refine ⟨?_, ?_, ?_⟩
          · show (link (stdlibAll env req ++ (builtinPart env st.fst).fst
                ++ (convertPhase env req loaded).fst)).countP
              (fun p => p.pkgPath = "builtin") = 1
            rw [link_countP _ _ (fun q => by simp [(linkPkg_fixed _ q).1])]
            have h1 : (stdlibAll env req).countP
                (fun p => decide (p.pkgPath = "builtin")) = 0 :=
              List.countP_eq_zero.mpr (fun a ha => by simp [hstd a ha])
            have h2 : ((convertPhase env req loaded).fst).countP
                (fun p => decide (p.pkgPath = "builtin")) = 0 :=
              List.countP_eq_zero.mpr (fun a ha => by simp [hconv2 a ha])
            rw [List.countP_append, List.countP_append, h1, h2, hbp]
            simp [builtinPkg]
          · show "builtin" ∈ (builtinPart env st.fst).snd ++ (convertPhase env req loaded).snd
            rw [hbp]
            simp
          · refine ⟨linkPkg (stdlibAll env req ++ (builtinPart env st.fst).fst
              ++ (convertPhase env req loaded).fst) (builtinPkg d), ?_, ?_⟩
            · exact List.mem_map_of_mem _ (by
                rw [hbp]
                simp)
            · have hlb : linkPkg (stdlibAll env req ++ (builtinPart env st.fst).fst
                  ++ (convertPhase env req loaded).fst) (builtinPkg d) = builtinPkg d := by
                unfold linkPkg
                rw [if_pos (show (builtinPkg d).pkgPath = "builtin" from rfl)]
              rw [hlb]
              refine ⟨rfl, rfl, ?_⟩
              show "builtin" ∈ (builtinPart env st.fst).snd ++ (convertPhase env req loaded).snd
              rw [hbp]
              simp

/-- Environment of the C9 witness: only the builtin directory is
present. -/
def envBuiltinW : Env := { builtinDir := some "/b" }

/-- The response of the C9 witness run. -/
def respBuiltinW : DriverResponse := (resolve envBuiltinW {} ["builtin"]).toOption.getD {}

/-- Witness for the amended C9: requesting `builtin` with a locatable
builtin directory yields exactly one builtin package, rooted. -/
theorem C9_builtin_roundtrip_witness :
    respBuiltinW.packages.countP (fun p => p.pkgPath = "builtin") = 1 ∧
    "builtin" ∈ respBuiltinW.roots ∧
    ∃ P ∈ respBuiltinW.packages, P.pkgPath = "builtin" ∧ P.id = "builtin" ∧
      P.id ∈ respBuiltinW.roots :=
  C9_builtin_roundtrip envBuiltinW {} ["builtin"] respBuiltinW rfl (by decide)
    "/b" rfl (by decide) (by decide)

end GnoResolver
